import Mathlib

/-!
Verification of the claim lifecycle synchronization engine of the Claim Bridge
frontend (src/src/app/page.tsx and the invoice parse/merge module
src/unnamed/part_000).  JavaScript runtime values are embedded shallowly as
the inductive type `JVal`; the page component's React state is embedded as
the record `AppState`, and each event handler of the page becomes a pure
state transformer.
-/

namespace ClaimBridge

/-- A JavaScript runtime value: undefined, null, booleans, numbers (modelled
as integers; the concrete payloads in this development are integral),
strings, arrays and plain objects (insertion-ordered key/value lists). -/
inductive JVal where
  | undef : JVal
  | jnull : JVal
  | jbool : Bool → JVal
  | jnum : Int → JVal
  | jstr : String → JVal
  | jarr : List JVal → JVal
  | jobj : List (String × JVal) → JVal

/-- JavaScript truthiness: undefined, null, false, 0 and the empty string are
falsy; every array and object is truthy. -/
def JVal.truthy : JVal → Bool
  | JVal.undef => false
  | .jnull => false
  | .jbool b => b
  | .jnum n => n != 0
  | .jstr s => s != ""
  | .jarr _ => true
  | .jobj _ => true

/-- A value is nullish when it is null or undefined (the values the JS `??`
operator skips over). -/
def JVal.nullish : JVal → Bool
  | JVal.undef => true
  | .jnull => true
  | _ => false

/-- JS property read `o[k]` on a value already known to be non-nullish: an
absent key (and any non-object receiver) reads as undefined. -/
def JVal.get (o : JVal) (k : String) : JVal :=
  match o with
  | .jobj fields =>
    match fields.find? (fun kv => kv.fst == k) with
    | some kv => kv.snd
    | none => JVal.undef
  | _ => JVal.undef

/-- The JS nullish-coalescing operator `a ?? b`. -/
def jqq (a b : JVal) : JVal := if a.nullish then b else a

/-- Strict equality of a value against a string literal (`v === "s"`). -/
def JVal.isStr (v : JVal) (s : String) : Bool :=
  match v with
  | .jstr t => t == s
  | _ => false

/-- The JS `k in o` key-presence test (false for every non-object value;
array index keys are not modelled, the code only probes string keys of
plain objects). -/
def JVal.hasKey (o : JVal) (k : String) : Bool :=
  match o with
  | .jobj fields => fields.any (fun kv => kv.fst == k)
  | _ => false

/-- Whether `typeof v === "object"` holds (null, arrays and objects). -/
def JVal.isObjectType : JVal → Bool
  | .jnull => true
  | .jarr _ => true
  | .jobj _ => true
  | _ => false

/-- String conversion used by template literals; array/object rendering is
abbreviated (display only, no claim depends on it). -/
def JVal.toDisplay : JVal → String
  | JVal.undef => "undefined"
  | .jnull => "null"
  | .jbool b => if b then "true" else "false"
  | .jnum n => toString n
  | .jstr s => s
  | .jarr _ => ""
  | .jobj _ => "[object Object]"

/-- Result tuple of `normalizeResponse` (page.tsx 47-52): reply text,
structured tool payload, optional lifecycle status and the optional `meta`
object, whose only two possible keys are modelled as two options. -/
structure NormResult where
  text : JVal
  tool : JVal
  status : Option String
  metaFilePath : Option JVal
  metaInsurancePending : Option JVal

/-- The `normalizeResponse` function of page.tsx 47-97.  Recognition order:
explicit pending envelope, explicit approved envelope, ambient
`insurance_pending` marker, then the legacy free-text fallback.  The legacy
branch dereferences `lr.message`, which throws a TypeError when the input is
null or undefined; this is modelled by the `Except` error case.  The
synthesized approval text elides the emoji and newline layout of the source
string (display only). -/
def normalizeResponse (json : JVal) : Except String NormResult :=
  if json.truthy && (json.get "status").isStr "pending" then
    .ok { text := jqq (json.get "agent_reply") (.jstr "")
        , tool := jqq (json.get "invoice") .jnull
        , status := some "pending"
        , metaFilePath := none
        , metaInsurancePending :=
            if (json.get "insurance_pending").truthy
            then some (json.get "insurance_pending") else none }
  else if json.truthy && (json.get "status").isStr "approved" then
    .ok { text := .jstr ("Claim approved and saved. " ++
            (if (json.get "file_path").truthy
             then "Saved to: " ++ (json.get "file_path").toDisplay ++ " "
             else "") ++
            "Here is the final invoice JSON below.")
        , tool := jqq (json.get "final_json") .jnull
        , status := some "approved"
        , metaFilePath := some (json.get "file_path")
        , metaInsurancePending := none }
  else if json.truthy && (json.get "insurance_pending").truthy then
    .ok { text := jqq (json.get "agent_reply") (.jstr "")
        , tool := jqq (json.get "invoice") .jnull
        , status := some "pending"
        , metaFilePath := none
        , metaInsurancePending := some (json.get "insurance_pending") }
  else if json.nullish then
    .error "TypeError: cannot read properties of null or undefined"
  else
    .ok { text := jqq (json.get "message") (.jstr "")
        , tool := jqq (json.get "tool_result") .jnull
        , status := none
        , metaFilePath := none
        , metaInsurancePending := none }

/-- Patient sub-record of the parser output (part_000 line 42): the object
literal always carries the keys full_name, ssn and dob; full_name/ssn hold
undefined when nothing was parsed (here `none`) and dob is always null. -/
structure ParsedPatient where
  full_name : Option String := none
  ssn : Option String := none

/-- Totals sub-record of the parser output (part_000 line 47): the literal
carries exactly the key total, null when no total was parsed. -/
structure ParsedTotals where
  total : Option Int := none

/-- Draft part of a `ParsedInvoice` as produced by `parseInvoiceFromText`
(part_000 lines 40-51): every key is present in the returned object literal;
optional values model undefined (hospital, diagnosis) or null
(date_of_service).  Procedures are kept as opaque JS values, matching the
merge code which only inspects array-ness and length. -/
structure ParsedDraft where
  patient : ParsedPatient := {}
  hospital : Option String := none
  date_of_service : Option String := none
  diagnosis : Option (List String) := none
  procedures : List JVal := []
  totals : ParsedTotals := {}
  ready_for_insurance : Bool := false

/-- The `ParsedInvoice` shape of src/types.ts as produced by the local
parser. -/
structure ParsedInvoice where
  draft : ParsedDraft := {}
  missing : List String := []

/-- Server-side patient object, keyed by the fields the merge can observe;
`JVal.undef` models an absent key (reading an absent key yields undefined,
and none of these fields is probed for key presence). -/
structure SPatient where
  full_name : JVal := JVal.undef
  ssn : JVal := JVal.undef
  dob : JVal := JVal.undef

/-- Server-side totals object, same convention as `SPatient`. -/
structure STotals where
  subtotal : JVal := JVal.undef
  discount : JVal := JVal.undef
  tax : JVal := JVal.undef
  total : JVal := JVal.undef

/-- Server-supplied draft (the object `d = s.draft ?? s.invoice ?? ` empty
in part_000 line 56); sub-objects that the merge spreads (`patient`,
`totals`) are flattened into field records, since a nullish sub-object and
an empty one behave identically under spread. -/
structure SDraft where
  patient : SPatient := {}
  hospital : JVal := JVal.undef
  date_of_service : JVal := JVal.undef
  diagnosis : JVal := JVal.undef
  procedures : JVal := JVal.undef
  totals : STotals := {}
  ready_for_insurance : JVal := JVal.undef

/-- The `serverTool` argument of `mergeToolResults`: a nullish argument
corresponds to the all-default record (`serverTool ?? ` empty object,
part_000 line 55).  `missing` is `s.missing ?? []`. -/
structure ServerTool where
  draft : Option SDraft := none
  invoice : Option SDraft := none
  missing : List String := []

/-- The draft `d = s.draft ?? s.invoice ?? ` empty object
(part_000 line 56). -/
def ServerTool.d (s : ServerTool) : SDraft :=
  match s.draft with
  | some dr => dr
  | none =>
    match s.invoice with
    | some inv => inv
    | none => {}

/-- Injection of a parsed optional string field into a JS value (absent
means the parser left the key holding undefined). -/
def optStrToJ : Option String → JVal
  | some s => .jstr s
  | none => JVal.undef

/-- Injection of a parsed nullable string field (the parser stores null
rather than undefined for date_of_service). -/
def optStrNullToJ : Option String → JVal
  | some s => .jstr s
  | none => .jnull

/-- Injection of the parsed diagnosis list (undefined when absent). -/
def optStrListToJ : Option (List String) → JVal
  | some l => .jarr (l.map .jstr)
  | none => JVal.undef

/-- Injection of the parsed nullable total. -/
def optIntNullToJ : Option Int → JVal
  | some n => .jnum n
  | none => .jnull

/-- The test `Array.isArray(v) && v.length` used for list fields in
part_000 lines 65-66. -/
def JVal.isNonEmptyArr : JVal → Bool
  | .jarr xs => !xs.isEmpty
  | _ => false

/-- Deduplication keeping the first occurrence of each element, as
`Array.from(new Set(l))` does in JS. -/
def dedupKeepFirst : List String → List String
  | [] => []
  | a :: rest => a :: dedupKeepFirst (rest.filter (fun b => b != a))
termination_by l => l.length
decreasing_by
  exact Nat.lt_succ_of_le (List.length_filter_le _ _)

/-- The merged draft produced by `mergeToolResults` (part_000 lines 60-69),
with the spread sub-objects flattened.  Because the parsed patient always
carries the keys full_name/ssn/dob and the parsed totals always carries the
key total, the spreads in lines 62 and 67 resolve those keys to the parsed
side unconditionally; the remaining server-side totals keys survive. -/
structure MergedDraft where
  patient_full_name : JVal
  patient_ssn : JVal
  patient_dob : JVal
  hospital : JVal
  date_of_service : JVal
  diagnosis : JVal
  procedures : JVal
  totals_subtotal : JVal
  totals_discount : JVal
  totals_tax : JVal
  totals_total : JVal
  ready_for_insurance : JVal

/-- Result of `mergeToolResults`: the merged draft plus the deduplicated
concatenation of the two missing lists (part_000 line 70). -/
structure MergedResult where
  draft : MergedDraft
  missing : List String

/-- The `mergeToolResults` function of part_000 lines 54-72. -/
def mergeToolResults (s : ServerTool) (parsed : ParsedInvoice) : MergedResult :=
  let d := s.d
  let p := parsed.draft
  { draft :=
    { patient_full_name := optStrToJ p.patient.full_name
    , patient_ssn := optStrToJ p.patient.ssn
    , patient_dob := .jnull
    , hospital := jqq d.hospital (optStrToJ p.hospital)
    , date_of_service := jqq d.date_of_service (optStrNullToJ p.date_of_service)
    , diagnosis :=
        if d.diagnosis.isNonEmptyArr then d.diagnosis else optStrListToJ p.diagnosis
    , procedures :=
        if d.procedures.isNonEmptyArr then d.procedures else .jarr p.procedures
    , totals_subtotal := d.totals.subtotal
    , totals_discount := d.totals.discount
    , totals_tax := d.totals.tax
    , totals_total := optIntNullToJ p.totals.total
    , ready_for_insurance :=
        match d.ready_for_insurance with
        | .jbool b => .jbool b
        | _ => .jbool p.ready_for_insurance }
  , missing := dedupKeepFirst (s.missing ++ parsed.missing) }

/-- Membership in the keep-first deduplication is membership in the input. -/
theorem mem_dedupKeepFirst : ∀ (l : List String) (x : String),
    x ∈ dedupKeepFirst l ↔ x ∈ l
  | [], x => by simp [dedupKeepFirst]
  | a :: rest, x => by
    rw [dedupKeepFirst]
    simp only [List.mem_cons]
    rw [mem_dedupKeepFirst (rest.filter (fun b => b != a)) x]
    simp only [List.mem_filter, bne_iff_ne, ne_eq, decide_not]
    by_cases hxa : x = a
    · simp [hxa]
    · simp [hxa]
termination_by l => l.length
decreasing_by
  exact Nat.lt_succ_of_le (List.length_filter_le _ _)

/-- The `meta` object optionally attached to a message (src/types.ts):
only the keys the page ever writes are modelled. -/
structure MsgMeta where
  file_path : Option JVal := none
  insurance_pending : Option JVal := none

/-- A chat message (src/types.ts `Message`): `tool_result` holds undefined
when the key is absent, `status` is the optional stage tag. -/
structure Msg where
  id : String
  role : String
  content : JVal
  tool_result : JVal := JVal.undef
  status : Option String := none
  meta : Option MsgMeta := none

/-- The truthiness test `m?.meta?.insurance_pending` used by the poller and
by `hasPendingInsurance` (page.tsx 174, 224, 255, 287). -/
def Msg.metaInsPending (m : Msg) : Bool :=
  match m.meta with
  | some mt =>
    match mt.insurance_pending with
    | some v => v.truthy
    | none => false
  | none => false

/-- Clearing of the pending card meta performed by the poll tick
(page.tsx 255, 287): messages whose meta carries a truthy
`insurance_pending` get their whole meta replaced by undefined. -/
def clearInsMeta (m : Msg) : Msg :=
  if m.metaInsPending then { m with meta := none } else m

/-- A sidebar thread (src/types.ts `Thread`); `title` is kept as a raw JS
value because the code assigns `tool.title` into it unchecked. -/
structure Thread where
  id : String
  title : JVal := .jstr ""
  active : Bool := false
  insuranceStatus : Option String := none
  transient : Bool := false

/-- The React state of the page component that the claims are about:
`threads`, `messagesById` (a JS object, modelled as an insertion-ordered
association list), the `pendingFor` busy marker, and `inFlight`, the claim
id of the request the current `abortRef` controller would cancel.
`remoteDeletes` is a ledger of DELETE calls issued to the chat store
(other remote writes are fire-and-forget and are not tracked). -/
structure AppState where
  threads : List Thread := []
  messagesById : List (String × List Msg) := []
  pendingFor : Option String := none
  inFlight : Option String := none
  remoteDeletes : List String := []

/-- Read `m[sid] ?? []` from the messages map (JS object keys are unique;
the first matching key is the key). -/
def getMsgs (mm : List (String × List Msg)) (sid : String) : List Msg :=
  match mm with
  | [] => []
  | kv :: rest => if kv.fst == sid then kv.snd else getMsgs rest sid

/-- Write key `sid` in the messages map, preserving insertion order; a new
key is appended at the end, as the JS spread update `...m` with a computed
key does. -/
def setMsgs (mm : List (String × List Msg)) (sid : String) (msgs : List Msg) :
    List (String × List Msg) :=
  match mm with
  | [] => [(sid, msgs)]
  | kv :: rest =>
    if kv.fst == sid then (sid, msgs) :: rest else kv :: setMsgs rest sid msgs

/-- The update pattern `[sessionId]: [...(m[sessionId] ?? []), msg]` used by
every append in the page. -/
def appendMsgL (sid : String) (msg : Msg) (mm : List (String × List Msg)) :
    List (String × List Msg) :=
  setMsgs mm sid (getMsgs mm sid ++ [msg])

/-- Set a thread's `insuranceStatus` (the `setThreads` map on page.tsx 265,
297, 424). -/
def setStatusL (sid : String) (st : String) (ths : List Thread) : List Thread :=
  ths.map (fun t => if t.id == sid then { t with insuranceStatus := some st } else t)

/-- Set a thread's title (page.tsx 392-396). -/
def patchTitleL (sid : String) (title : JVal) (ths : List Thread) : List Thread :=
  ths.map (fun t => if t.id == sid then { t with title := title } else t)

/-- Messages of a claim in the app state. -/
def msgsOf (s : AppState) (cid : String) : List Msg :=
  getMsgs s.messagesById cid

/-- Thread record of a claim in the app state. -/
def threadOf (s : AppState) (cid : String) : Option Thread :=
  s.threads.find? (fun t => t.id == cid)

/-- The outcome of one `sendToBackend` fetch: a parsed JSON body, a
transport/HTTP failure with its error text, or an abort. -/
inductive Outcome where
  | ok : JVal → Outcome
  | httpErr : String → Outcome
  | aborted : Outcome

/-- Whether the normalized response carries a truthy
`meta.insurance_pending` (the test on page.tsx 423). -/
def NormResult.metaPendTruthy (r : NormResult) : Bool :=
  match r.metaInsurancePending with
  | some v => v.truthy
  | none => false

/-- The meta object stored on the assistant message (page.tsx 413): absent
when the normalizer produced no meta. -/
def NormResult.mkMeta (r : NormResult) : Option MsgMeta :=
  match r.metaFilePath, r.metaInsurancePending with
  | none, none => none
  | fp, ip => some { file_path := fp, insurance_pending := ip }

/-- The assistant message built from a normalized response
(page.tsx 402-416): content is `assistantText ?? ` empty string. -/
def mkAssistantMsg (aid : String) (r : NormResult) : Msg :=
  { id := aid
  , role := "assistant"
  , content := jqq r.text (.jstr "")
  , tool_result := r.tool
  , status := r.status
  , meta := r.mkMeta }

/-- The error message appended by the catch branch (page.tsx 429-439);
the source text includes an emoji and an apostrophe that are elided here
(display only). -/
def mkErrorMsg (aid : String) (emsg : String) : Msg :=
  { id := aid
  , role := "assistant"
  , content := .jstr ("Sorry, I could not process that request. " ++ emsg) }

/-- Effect of a completed `sendToBackend` call on `(threads, messagesById)`
(page.tsx 383-440): on success the response is normalized, the title is
patched when `tool?.title` is truthy, the assistant message is appended and
a truthy `meta.insurance_pending` sets the thread status to pending; a
TypeError thrown by `normalizeResponse` is caught by the same catch branch
as a transport failure, which appends one error message; an abort appends
nothing and changes nothing. -/
def sendEffect (sid aid : String) (o : Outcome)
    (p : List Thread × List (String × List Msg)) :
    List Thread × List (String × List Msg) :=
  match o with
  | .aborted => p
  | .httpErr e => (p.fst, appendMsgL sid (mkErrorMsg aid e) p.snd)
  | .ok json =>
    match normalizeResponse json with
    | .error e => (p.fst, appendMsgL sid (mkErrorMsg aid e) p.snd)
    | .ok r =>
      let ths0 := if (r.tool.get "title").truthy
                  then patchTitleL sid (r.tool.get "title") p.fst else p.fst
      let ths1 := if r.metaPendTruthy then setStatusL sid "pending" ths0 else ths0
      (ths1, appendMsgL sid (mkAssistantMsg aid r) p.snd)

/-- Start of `sendToBackend` (page.tsx 369-375): the previous in-flight
request is aborted (its completion will arrive with outcome `aborted`), the
new controller is stored and the claim is marked busy. -/
def startSend (sid : String) (s : AppState) : AppState :=
  { s with pendingFor := some sid, inFlight := some sid }

/-- Completion of a `sendToBackend` call: the try/catch effect followed by
the finally block (page.tsx 441-445), which clears `pendingFor` only when
it still names this session and always drops the abort controller. -/
def completeSend (sid aid : String) (o : Outcome) (s : AppState) : AppState :=
  let pr := sendEffect sid aid o (s.threads, s.messagesById)
  { s with
    threads := pr.fst
  , messagesById := pr.snd
  , pendingFor := if s.pendingFor == some sid then none else s.pendingFor
  , inFlight := none }

/-- The insurance tool-result shape test of page.tsx 456-459 (also inlined
in the tick dedup checks at 257-259 and 289-291): a truthy object carrying
a `result_json` or `message` key. -/
def isInsuranceToolResult (tr : JVal) : Bool :=
  tr.truthy && tr.isObjectType && (tr.hasKey "result_json" || tr.hasKey "message")

/-- Money display used by the tick messages; the two-decimal locale
formatting of the source is abbreviated (display only, no claim depends on
the rendered text). -/
def fmtMoney (n : Int) : String := "$" ++ toString n

/-- The `tool` taken from a poll item:
`it?.insurance_reply?.tool_result ?? null` (page.tsx 235, 274). -/
def pollTool (item : JVal) : JVal :=
  jqq ((item.get "insurance_reply").get "tool_result") .jnull

/-- The result record `rj = tool?.result_json ?? ` empty object
(page.tsx 236, 275). -/
def pollRj (item : JVal) : JVal :=
  jqq ((pollTool item).get "result_json") (.jobj [])

/-- The hospital-total display string of the tick messages (page.tsx
239-242, 277-280); `Number` coercion of non-numeric values is modelled as
not-a-number. -/
def hospStr (item : JVal) : String :=
  match (item.get "invoice").get "total" with
  | .jnum n => fmtMoney n
  | _ => "-"

/-- Content of the approved decision message (page.tsx 237-248). -/
def approvedContent (item : JVal) : String :=
  let rj := pollRj item
  let polStr := if (jqq (rj.get "policy_id") (.jstr "")).truthy
                then (jqq (rj.get "policy_id") (.jstr "")).toDisplay else "-"
  let totalStr := match rj.get "total_payable" with
                  | .jnum n => fmtMoney n
                  | _ => "-"
  "## Insurance Decision (Approved)\nPolicy: " ++ polStr ++
    "\nTotal payable: " ++ totalStr ++ "\nHospital total: " ++ hospStr item

/-- Content of the denied decision message (page.tsx 274-282). -/
def deniedContent (item : JVal) : String :=
  let rj := pollRj item
  let reason := if (rj.get "reason").truthy
                then (rj.get "reason").toDisplay
                else "No matching policy or not eligible"
  "## Insurance Decision (Denied)\nReason: " ++ reason ++
    "\nHospital total: " ++ hospStr item

/-- One poll tick of the decision poller for the tracked session
(page.tsx 217-307), with the matched list entry `it` passed in (`item`
falsy models `if (!it) return`): a terminal status clears the pending card
meta on every message, appends the decision message unless some message
already carries the same terminal tag together with an insurance-shaped
tool result, and records the terminal status on the thread; any other
status is a no-op. -/
def tickStep (sid aid : String) (item : JVal) (s : AppState) : AppState :=
  if !item.truthy then s
  else if (item.get "status").isStr "approved" then
    let tool := pollTool item
    let msgs := (msgsOf s sid).map clearInsMeta
    let already := msgs.any fun mm =>
      mm.status == some "approved" && isInsuranceToolResult mm.tool_result
    let next := if already then msgs else
      msgs ++ [{ id := aid, role := "assistant"
               , content := .jstr (approvedContent item)
               , tool_result := tool, status := some "approved" }]
    { s with messagesById := setMsgs s.messagesById sid next
           , threads := setStatusL sid "approved" s.threads }
  else if (item.get "status").isStr "denied" then
    let tool := pollTool item
    let msgs := (msgsOf s sid).map clearInsMeta
    let already := msgs.any fun mm =>
      mm.status == some "denied" && isInsuranceToolResult mm.tool_result
    let next := if already then msgs else
      msgs ++ [{ id := aid, role := "assistant"
               , content := .jstr (deniedContent item)
               , tool_result := tool, status := some "denied" }]
    { s with messagesById := setMsgs s.messagesById sid next
           , threads := setStatusL sid "denied" s.threads }
  else s

/-- Promote the first remaining thread to active (the
`filtered[0].active = true` mutation in page.tsx 360). -/
def activateHead : List Thread → List Thread
  | [] => []
  | t :: ts => { t with active := true } :: ts

/-- Whether the thread about to be deleted is the active one
(`prev.find((t) => t.id === id)?.active`, page.tsx 360). -/
def threadWasActive (ths : List Thread) (id : String) : Bool :=
  match ths.find? (fun t => t.id == id) with
  | some t => t.active
  | none => false

/-- The `handleDeleteConvo` handler (page.tsx 350-365): issues the remote
DELETE, drops the thread, promotes the first remaining thread when the
deleted one was active (clearing everything when none remains), and removes
the claim's entry from the messages map.  Nothing here touches the abort
controller or the busy marker. -/
def handleDeleteConvo (id : String) (s : AppState) : AppState :=
  if (s.threads.filter (fun t => t.id != id)).isEmpty then
    { s with threads := [], messagesById := []
           , remoteDeletes := s.remoteDeletes ++ [id] }
  else
    { s with
      threads :=
        if threadWasActive s.threads id
        then activateHead (s.threads.filter (fun t => t.id != id))
        else s.threads.filter (fun t => t.id != id)
    , messagesById := s.messagesById.filter (fun kv => kv.fst != id)
    , remoteDeletes := s.remoteDeletes ++ [id] }

/-- `hasPendingInsurance` (page.tsx 173-177): some message still carries a
truthy insurance_pending meta, or the thread status is pending. -/
def hasPendingInsurance (t : Thread) (msgs : List Msg) : Bool :=
  msgs.any Msg.metaInsPending || t.insuranceStatus == some "pending"

/-- `hasFinalInsuranceMessage` (page.tsx 180-184): some message carries an
approved or denied tag together with an insurance-shaped tool result (the
source scans the reversed list; only existence matters). -/
def hasFinalInsuranceMessage (msgs : List Msg) : Bool :=
  msgs.any fun m =>
    (m.status == some "approved" || m.status == some "denied") &&
      isInsuranceToolResult m.tool_result

/-- `shouldPollInsuranceNow` (page.tsx 189-194). -/
def shouldPollInsuranceNow (t : Thread) (msgs : List Msg) : Bool :=
  if t.insuranceStatus == some "pending" then true
  else if (t.insuranceStatus == some "approved" || t.insuranceStatus == some "denied")
          && !hasFinalInsuranceMessage msgs then true
  else false

/-- The poll effect's entry condition (page.tsx 212-214): the effect body
runs unless both `hasPendingInsurance` and `shouldPollInsuranceNow` are
false. -/
def pollerActive (t : Thread) (msgs : List Msg) : Bool :=
  hasPendingInsurance t msgs || shouldPollInsuranceNow t msgs

/-- Poll activity for a claim id in the app state: a deleted (unknown) id
is never polled. -/
def pollerActiveFor (s : AppState) (cid : String) : Bool :=
  match threadOf s cid with
  | some t => pollerActive t (msgsOf s cid)
  | none => false

/-- The lifecycle stages of section 3 of the spec. -/
inductive Stage where
  | draft : Stage
  | hospital_pending : Stage
  | hospital_approved : Stage
  | insurer_pending : Stage
  | insurer_approved : Stage
  | insurer_denied : Stage
deriving DecidableEq

/-- Position of a stage along the fixed order draft, hospital_pending,
hospital_approved, insurer_pending, then the two terminal insurer
decisions (which share the final position). -/
def Stage.rank : Stage → Nat
  | .draft => 0
  | .hospital_pending => 1
  | .hospital_approved => 2
  | .insurer_pending => 3
  | .insurer_approved => 4
  | .insurer_denied => 4

/-- The observed lifecycle stage of a claim as the code realizes it: the
thread's `insuranceStatus` dominates (mirroring `threadInsuranceStatus`,
page.tsx 486-489), and otherwise the presence of a hospital-approval
message (mirroring `hasApprovedMessage`, page.tsx 482-485) separates
hospital_approved from draft. -/
def observedStage (t : Thread) (msgs : List Msg) : Stage :=
  if t.insuranceStatus == some "approved" then .insurer_approved
  else if t.insuranceStatus == some "denied" then .insurer_denied
  else if t.insuranceStatus == some "pending" then .insurer_pending
  else if msgs.any (fun m => m.status == some "approved") then .hospital_approved
  else .draft

/-- Observed stage of a claim id in the app state. -/
def stageOfClaim (s : AppState) (cid : String) : Option Stage :=
  (threadOf s cid).map fun t => observedStage t (msgsOf s cid)

/-- The operations of the lifecycle engine that touch a claim's visible
state: appending the operator's user message, issuing a submission,
completing one, and a poll tick (deletion is treated separately, as the
claims exempt it). -/
inductive Op where
  | user : String → String → String → Op
  | start : String → Op
  | complete : String → String → Outcome → Op
  | tick : String → String → JVal → Op

/-- Apply one operation to the app state.  `user sid uid c` is the operator
message append of page.tsx 598-606, 619-627 and 664-670. -/
def applyOp : Op → AppState → AppState
  | .user sid uid c, s =>
    { s with messagesById :=
        appendMsgL sid { id := uid, role := "user", content := .jstr c } s.messagesById }
  | .start sid, s => startSend sid s
  | .complete sid aid o, s => completeSend sid aid o s
  | .tick sid aid item, s => tickStep sid aid item s

/-- Number of messages carrying a given stage tag. -/
def countWithTag (tag : String) (msgs : List Msg) : Nat :=
  (msgs.filter (fun m => m.status == some tag)).length

/-- Whether the claim currently sits at a terminal insurer status. -/
def claimTerminal (s : AppState) (cid : String) : Bool :=
  match threadOf s cid with
  | some t => t.insuranceStatus == some "approved" || t.insuranceStatus == some "denied"
  | none => false

/-- Whether a backend response, once normalized, carries a truthy
`insurance_pending` marker (the condition under which sendToBackend resets
the thread status to pending, page.tsx 423-426). -/
def respSetsInsurancePending (json : JVal) : Bool :=
  match normalizeResponse json with
  | .ok r => r.metaPendTruthy
  | .error _ => false

/-- An operation is non-regressing for a claim unless it is the completion
of a submission for that claim whose response carries an insurance_pending
marker while the claim already sits at a terminal insurer status. -/
def nonRegressing (cid : String) (s : AppState) : Op → Prop
  | .complete sid _ (.ok json) =>
    sid = cid → respSetsInsurancePending json = true → claimTerminal s cid = false
  | _ => True

/-! Association-map and thread-list lemmas. -/

theorem getMsgs_setMsgs_self (mm : List (String × List Msg)) (sid : String)
    (msgs : List Msg) : getMsgs (setMsgs mm sid msgs) sid = msgs := by
  induction mm with
  | nil => simp [setMsgs, getMsgs]
  | cons kv rest ih =>
    by_cases hk : kv.fst == sid
    · simp [setMsgs, getMsgs, hk]
    · simp only [Bool.not_eq_true] at hk
      simp [setMsgs, getMsgs, hk, ih]

theorem getMsgs_setMsgs_other (mm : List (String × List Msg)) (sid cid : String)
    (msgs : List Msg) (h : cid ≠ sid) :
    getMsgs (setMsgs mm sid msgs) cid = getMsgs mm cid := by
  induction mm with
  | nil => simp [setMsgs, getMsgs, Ne.symm h]
  | cons kv rest ih =>
    by_cases hk : kv.fst == sid
    · have hkc : (kv.fst == cid) = false := by
        have hks : kv.fst = sid := by simpa using hk
        simp [hks, Ne.symm h]
      simp [setMsgs, getMsgs, hk, hkc, Ne.symm h]
    · simp only [Bool.not_eq_true] at hk
      by_cases hkc : kv.fst == cid
      · simp [setMsgs, getMsgs, hk, hkc]
      · simp only [Bool.not_eq_true] at hkc
        simp [setMsgs, getMsgs, hk, hkc, ih]

theorem getMsgs_appendMsgL_self (mm : List (String × List Msg)) (sid : String)
    (msg : Msg) : getMsgs (appendMsgL sid msg mm) sid = getMsgs mm sid ++ [msg] := by
  unfold appendMsgL
  exact getMsgs_setMsgs_self mm sid _

theorem getMsgs_appendMsgL_other (mm : List (String × List Msg)) (sid cid : String)
    (msg : Msg) (h : cid ≠ sid) :
    getMsgs (appendMsgL sid msg mm) cid = getMsgs mm cid := by
  unfold appendMsgL
  exact getMsgs_setMsgs_other mm sid cid _ h

theorem find?_map_of_pred_inv {α : Type} (f : α → α) (p : α → Bool)
    (hf : ∀ x, p (f x) = p x) (l : List α) :
    (l.map f).find? p = (l.find? p).map f := by
  induction l with
  | nil => rfl
  | cons x xs ih =>
    by_cases hx : p x
    · simp [List.find?, hf, hx]
    · simp only [Bool.not_eq_true] at hx
      simp [List.find?, hf, hx, ih]

theorem threadOf_setStatusL (s : List Thread) (sid st cid : String) :
    (setStatusL sid st s).find? (fun t => t.id == cid) =
      (s.find? (fun t => t.id == cid)).map
        (fun t => if t.id == sid then { t with insuranceStatus := some st } else t) := by
  unfold setStatusL
  apply find?_map_of_pred_inv
  intro t
  by_cases h : t.id == sid <;> simp [h]

theorem threadOf_patchTitleL (s : List Thread) (sid : String) (title : JVal)
    (cid : String) :
    (patchTitleL sid title s).find? (fun t => t.id == cid) =
      (s.find? (fun t => t.id == cid)).map
        (fun t => if t.id == sid then { t with title := title } else t) := by
  unfold patchTitleL
  apply find?_map_of_pred_inv
  intro t
  by_cases h : t.id == sid <;> simp [h]

theorem rank_le_four (st : Stage) : st.rank ≤ 4 := by
  cases st <;> simp [Stage.rank]

/-- Every status a normalized response can carry: the normalizer only ever
writes pending, approved, or no status at all. -/
theorem norm_status_cases (json : JVal) (r : NormResult)
    (h : normalizeResponse json = .ok r) :
    r.status = none ∨ r.status = some "pending" ∨ r.status = some "approved" := by
  unfold normalizeResponse at h
  split_ifs at h <;> (simp only [Except.ok.injEq] at h; subst h; simp)

/-- Splitting membership across an append on the messages map. -/
theorem mem_getMsgs_appendMsgL (mm : List (String × List Msg)) (sid cid : String)
    (msg : Msg) (m : Msg) (hm : m ∈ getMsgs (appendMsgL sid msg mm) cid) :
    m ∈ getMsgs mm cid ∨ m = msg := by
  by_cases h : cid = sid
  · subst h
    rw [getMsgs_appendMsgL_self] at hm
    rcases List.mem_append.mp hm with h1 | h1
    · exact Or.inl h1
    · exact Or.inr (List.mem_singleton.mp h1)
  · rw [getMsgs_appendMsgL_other mm sid cid msg h] at hm
    exact Or.inl hm

/-- C3 counterexample: a patient field present only in the server draft is
lost by the merge.  With `S.draft.patient.full_name = "John Doe"` and a
local parse that found no name (its patient literal still carries the key,
holding undefined), the merged draft's patient.full_name is undefined: the
server value is discarded. -/
theorem C3_merge_loses_server_patient_field :
    ({ draft := some { patient := { full_name := .jstr "John Doe" } } }
        : ServerTool).d.patient.full_name = JVal.jstr "John Doe" ∧
    ({} : ParsedInvoice).draft.patient.full_name = none ∧
    (mergeToolResults
      { draft := some { patient := { full_name := .jstr "John Doe" } } }
      {}).draft.patient_full_name = JVal.undef :=
  ⟨rfl, rfl, rfl⟩

/-- C3 (amended): `mergeToolResults` never loses hospital, date_of_service,
diagnosis, procedures, or the totals sub-fields subtotal/discount/tax — for
those, a value present in exactly one source survives — but the patient
sub-fields full_name/ssn and totals.total always take the locally-parsed
side (whose object spread carries every key), so a server-only value for
those three fields is overwritten. -/
theorem C3_merge_preservation_amended (s : ServerTool) (p : ParsedInvoice) :
    (s.d.hospital.nullish = true →
      (mergeToolResults s p).draft.hospital = optStrToJ p.draft.hospital) ∧
    (s.d.hospital.nullish = false →
      (mergeToolResults s p).draft.hospital = s.d.hospital) ∧
    (s.d.date_of_service.nullish = true →
      (mergeToolResults s p).draft.date_of_service = optStrNullToJ p.draft.date_of_service) ∧
    (s.d.date_of_service.nullish = false →
      (mergeToolResults s p).draft.date_of_service = s.d.date_of_service) ∧
    (s.d.diagnosis.isNonEmptyArr = false →
      (mergeToolResults s p).draft.diagnosis = optStrListToJ p.draft.diagnosis) ∧
    (s.d.diagnosis.isNonEmptyArr = true →
      (mergeToolResults s p).draft.diagnosis = s.d.diagnosis) ∧
    (s.d.procedures.isNonEmptyArr = false →
      (mergeToolResults s p).draft.procedures = JVal.jarr p.draft.procedures) ∧
    (s.d.procedures.isNonEmptyArr = true →
      (mergeToolResults s p).draft.procedures = s.d.procedures) ∧
    (mergeToolResults s p).draft.totals_subtotal = s.d.totals.subtotal ∧
    (mergeToolResults s p).draft.totals_discount = s.d.totals.discount ∧
    (mergeToolResults s p).draft.totals_tax = s.d.totals.tax ∧
    (mergeToolResults s p).draft.totals_total = optIntNullToJ p.draft.totals.total ∧
    (mergeToolResults s p).draft.patient_full_name = optStrToJ p.draft.patient.full_name ∧
    (mergeToolResults s p).draft.patient_ssn = optStrToJ p.draft.patient.ssn := by
  refine ⟨fun h => ?_, fun h => ?_, fun h => ?_, fun h => ?_, fun h => ?_, fun h => ?_,
    fun h => ?_, fun h => ?_, rfl, rfl, rfl, rfl, rfl, rfl⟩ <;>
    simp [mergeToolResults, jqq, h]

/-- Server draft used by the C3 witness. -/
def C3S : ServerTool :=
  { draft := some { hospital := .jstr "City General", diagnosis := .jarr [] } }

/-- Parsed invoice used by the C3 witness. -/
def C3P : ParsedInvoice := { draft := { diagnosis := some ["flu"] } }

/-- C3 witness: the preserved cases of the amended claim at a concrete
input — a server-only hospital survives, and a local-only diagnosis list
survives an empty server-side array. -/
theorem C3_merge_preservation_amended_witness :
    (mergeToolResults C3S C3P).draft.hospital = JVal.jstr "City General" ∧
    (mergeToolResults C3S C3P).draft.diagnosis = JVal.jarr [JVal.jstr "flu"] :=
  ⟨(C3_merge_preservation_amended C3S C3P).2.1 rfl,
   (C3_merge_preservation_amended C3S C3P).2.2.2.2.1 rfl⟩

/-- C4 counterexample: with `S.draft.hospital = ""` (present but empty) and
a locally-parsed hospital "General Hospital", the merge keeps the empty
server string — the claimed "present and non-empty" guard does not exist
(the code tests only nullishness) — and with `S.draft.patient.full_name =
"John"` and no locally-parsed name, the merged patient drops the server
value — patient precedence is local-wins, not server-wins. -/
theorem C4_merge_precedence_counterexample :
    (mergeToolResults
      { draft := some { hospital := .jstr "", patient := { full_name := .jstr "John" } } }
      { draft := { hospital := some "General Hospital" } }).draft.hospital
      = JVal.jstr "" ∧
    JVal.jstr "" ≠ JVal.jstr "General Hospital" ∧
    (mergeToolResults
      { draft := some { hospital := .jstr "", patient := { full_name := .jstr "John" } } }
      { draft := { hospital := some "General Hospital" } }).draft.patient_full_name
      = JVal.undef := by
  refine ⟨rfl, fun h => ?_, rfl⟩
  simp at h

/-- C4 (amended): the scalar fields hospital and date_of_service take the
server value whenever it is non-nullish — even when it is an empty string —
and otherwise the locally-parsed value; the patient sub-record is merged by
spreading the parsed patient over the server patient, so the parsed side
wins on every key it carries (full_name, ssn, and dob, which is always
null). -/
theorem C4_merge_precedence_amended (s : ServerTool) (p : ParsedInvoice) :
    ((mergeToolResults s p).draft.hospital =
       if s.d.hospital.nullish then optStrToJ p.draft.hospital else s.d.hospital) ∧
    ((mergeToolResults s p).draft.date_of_service =
       if s.d.date_of_service.nullish then optStrNullToJ p.draft.date_of_service
       else s.d.date_of_service) ∧
    (mergeToolResults s p).draft.patient_full_name = optStrToJ p.draft.patient.full_name ∧
    (mergeToolResults s p).draft.patient_ssn = optStrToJ p.draft.patient.ssn ∧
    (mergeToolResults s p).draft.patient_dob = JVal.jnull := by
  refine ⟨?_, ?_, rfl, rfl, rfl⟩ <;> simp [mergeToolResults, jqq]

/-- C5: the merged missing list contains exactly the union of the two
sources' missing lists (the code deduplicates the concatenation through a
Set, so membership is preserved in both directions). -/
theorem C5_missing_union (s : ServerTool) (parsed : ParsedInvoice) (x : String) :
    x ∈ (mergeToolResults s parsed).missing ↔ x ∈ s.missing ∨ x ∈ parsed.missing := by
  simp [mergeToolResults, mem_dedupKeepFirst]

/-- Whether a raw response matches none of the three recognized shapes of
`normalizeResponse` (pending envelope, approved envelope, ambient
insurance_pending marker). -/
def unrecognizedShape (j : JVal) : Bool :=
  !(j.truthy && (j.get "status").isStr "pending") &&
  !(j.truthy && (j.get "status").isStr "approved") &&
  !(j.truthy && (j.get "insurance_pending").truthy)

/-- C7 counterexample: `normalizeResponse` is not total — on a null or
undefined body the legacy branch dereferences `lr.message` and throws a
TypeError instead of degrading to the free-text rule. -/
theorem C7_normalizer_throws_on_null :
    normalizeResponse JVal.jnull =
      Except.error "TypeError: cannot read properties of null or undefined" ∧
    normalizeResponse JVal.undef =
      Except.error "TypeError: cannot read properties of null or undefined" :=
  ⟨rfl, rfl⟩

/-- C7 (amended): on every non-nullish raw value `normalizeResponse`
returns without throwing, and any such value not recognized as a pending
envelope, an approved envelope, or an ambient insurer-pending marker
degrades to the legacy rule: the response's message text (or the empty
string), the raw tool payload verbatim, and no lifecycle status; only a
null or undefined body makes it throw. -/
theorem C7_normalizer_total_amended (j : JVal) (h : j.nullish = false) :
    (∃ r, normalizeResponse j = Except.ok r) ∧
    (unrecognizedShape j = true →
      normalizeResponse j = Except.ok
        { text := jqq (j.get "message") (.jstr "")
        , tool := jqq (j.get "tool_result") .jnull
        , status := none, metaFilePath := none, metaInsurancePending := none }) := by
  constructor
  · unfold normalizeResponse
    split_ifs <;>
      first
        | exact ⟨_, rfl⟩
        | simp_all
  · intro hu
    simp only [unrecognizedShape, Bool.and_eq_true, Bool.not_eq_true'] at hu
    obtain ⟨⟨h1, h2⟩, h3⟩ := hu
    simp [normalizeResponse, h1, h2, h3, h]

/-- C7 witness: a plain legacy body falls through to the free-text rule. -/
theorem C7_normalizer_total_amended_witness :
    normalizeResponse (.jobj [("message", .jstr "hi")]) =
      Except.ok { text := .jstr "hi", tool := .jnull, status := none
                , metaFilePath := none, metaInsurancePending := none } :=
  (C7_normalizer_total_amended (.jobj [("message", .jstr "hi")]) rfl).2 rfl

/-- Any message present after a send completion was already there or does
not carry the denied tag: the operator-submission path can append only a
normalized assistant message (status pending, approved or absent) or an
error message (no status). -/
theorem mem_msgsOf_completeSend (sid aid cid : String) (o : Outcome) (s : AppState)
    (m : Msg) (hm : m ∈ msgsOf (completeSend sid aid o s) cid) :
    m ∈ msgsOf s cid ∨ m.status ≠ some "denied" := by
  cases o with
  | aborted =>
    exact Or.inl (by simpa [msgsOf, completeSend, sendEffect] using hm)
  | httpErr e =>
    have hm2 : m ∈ getMsgs (appendMsgL sid (mkErrorMsg aid e) s.messagesById) cid := by
      simpa [msgsOf, completeSend, sendEffect] using hm
    rcases mem_getMsgs_appendMsgL _ _ _ _ _ hm2 with h1 | h1
    · exact Or.inl h1
    · right
      subst h1
      simp [mkErrorMsg]
  | ok json =>
    cases hn : normalizeResponse json with
    | error e =>
      have hm2 : m ∈ getMsgs (appendMsgL sid (mkErrorMsg aid e) s.messagesById) cid := by
        simpa [msgsOf, completeSend, sendEffect, hn] using hm
      rcases mem_getMsgs_appendMsgL _ _ _ _ _ hm2 with h1 | h1
      · exact Or.inl h1
      · right
        subst h1
        simp [mkErrorMsg]
    | ok r =>
      have hm2 : m ∈ getMsgs (appendMsgL sid (mkAssistantMsg aid r) s.messagesById) cid := by
        simpa [msgsOf, completeSend, sendEffect, hn] using hm
      rcases mem_getMsgs_appendMsgL _ _ _ _ _ hm2 with h1 | h1
      · exact Or.inl h1
      · right
        subst h1
        rcases norm_status_cases json r hn with h2 | h2 | h2 <;> simp [mkAssistantMsg, h2]

/-- C10: the normalizer only ever yields status pending, approved or none —
never denied — and consequently neither a submission completion nor an
operator message append can introduce a denied-tagged message; a denial can
enter a claim's message list only through the poll tick path. -/
theorem C10_no_denied_from_normalizer :
    (∀ (json : JVal) (r : NormResult), normalizeResponse json = Except.ok r →
      r.status = none ∨ r.status = some "pending" ∨ r.status = some "approved") ∧
    (∀ (sid aid cid : String) (o : Outcome) (s : AppState) (m : Msg),
      m ∈ msgsOf (applyOp (.complete sid aid o) s) cid →
      m ∈ msgsOf s cid ∨ m.status ≠ some "denied") ∧
    (∀ (sid uid c cid : String) (s : AppState) (m : Msg),
      m ∈ msgsOf (applyOp (.user sid uid c) s) cid →
      m ∈ msgsOf s cid ∨ m.status ≠ some "denied") := by
  refine ⟨norm_status_cases, ?_, ?_⟩
  · intro sid aid cid o s m hm
    exact mem_msgsOf_completeSend sid aid cid o s m hm
  · intro sid uid c cid s m hm
    have hm2 : m ∈ getMsgs
        (appendMsgL sid { id := uid, role := "user", content := .jstr c } s.messagesById)
        cid := by
      simpa [msgsOf, applyOp] using hm
    rcases mem_getMsgs_appendMsgL _ _ _ _ _ hm2 with h1 | h1
    · exact Or.inl h1
    · right
      subst h1
      simp

/-- C10 witness: a body that itself says status denied is not a recognized
envelope, so the normalizer falls back to the legacy rule with no status
at all. -/
theorem C10_no_denied_from_normalizer_witness :
    ({ text := .jstr "", tool := .jnull, status := none
     , metaFilePath := none, metaInsurancePending := none } : NormResult).status = none ∨
    ({ text := .jstr "", tool := .jnull, status := none
     , metaFilePath := none, metaInsurancePending := none } : NormResult).status = some "pending" ∨
    ({ text := .jstr "", tool := .jnull, status := none
     , metaFilePath := none, metaInsurancePending := none } : NormResult).status = some "approved" :=
  C10_no_denied_from_normalizer.1 (.jobj [("status", .jstr "denied")]) _ rfl

/-- C6: cancellation leaves no trace.  Issuing submission A for a claim,
then submission B for the same claim before A resolves (B's start aborts
A), then letting A's cancelled completion arrive and finally B's response,
yields exactly the state of issuing and completing B alone: the aborted
completion appends no message and changes no claim state. -/
theorem C6_cancellation_no_trace (s0 : AppState) (cid aidA aidB : String) (o : Outcome) :
    completeSend cid aidB o
        (completeSend cid aidA .aborted (startSend cid (startSend cid s0))) =
      completeSend cid aidB o (startSend cid s0) := by
  cases s0
  simp [completeSend, startSend, sendEffect]

/-- A thread list filtered on a different id never finds that id. -/
theorem find?_thread_filter_ne (l : List Thread) (id : String) :
    (l.filter (fun t => t.id != id)).find? (fun t => t.id == id) = none := by
  rw [List.find?_eq_none]
  intro x hx
  have hne := (List.mem_filter.mp hx).2
  simp only [bne_iff_ne, ne_eq] at hne
  simp [hne]

/-- Activating the head thread does not change which ids occur. -/
theorem find?_activateHead_none (l : List Thread) (id : String)
    (h : l.find? (fun t => t.id == id) = none) :
    (activateHead l).find? (fun t => t.id == id) = none := by
  cases l with
  | nil => rfl
  | cons t ts =>
    obtain ⟨tid, ttitle, tact, tins, ttr⟩ := t
    simp only [List.find?] at h ⊢
    cases hk : ((tid : String) == id) with
    | true => simp [hk] at h
    | false => simpa [activateHead, List.find?, hk] using h

/-- A messages map filtered on a different key reads as absent. -/
theorem getMsgs_filter_ne (mm : List (String × List Msg)) (id : String) :
    getMsgs (mm.filter (fun kv => kv.fst != id)) id = [] := by
  induction mm with
  | nil => rfl
  | cons kv rest ih =>
    by_cases h : kv.fst = id
    · simp only [List.filter_cons, h, bne_self_eq_false, Bool.false_eq_true, if_false]
      exact ih
    · have hb : (kv.fst != id) = true := by simp [h]
      have hbeq : (kv.fst == id) = false := by simp [h]
      simp only [List.filter_cons, hb, if_true]
      simp only [getMsgs, hbeq, Bool.false_eq_true, if_false]
      exact ih

/-- C9 (amended): deleting a claim removes its thread and messages from
local state, issues the remote DELETE, and leaves nothing for the poller to
target — but it does not cancel an in-flight request: the abort controller
and the busy marker are untouched. -/
theorem C9_delete_cleanup_amended (s : AppState) (id : String) :
    threadOf (handleDeleteConvo id s) id = none ∧
    msgsOf (handleDeleteConvo id s) id = [] ∧
    pollerActiveFor (handleDeleteConvo id s) id = false ∧
    (handleDeleteConvo id s).remoteDeletes = s.remoteDeletes ++ [id] ∧
    (handleDeleteConvo id s).inFlight = s.inFlight ∧
    (handleDeleteConvo id s).pendingFor = s.pendingFor := by
  have hth : threadOf (handleDeleteConvo id s) id = none := by
    unfold handleDeleteConvo threadOf
    split
    · rfl
    · split
      · exact find?_activateHead_none _ _ (find?_thread_filter_ne s.threads id)
      · exact find?_thread_filter_ne s.threads id
  refine ⟨hth, ?_, ?_, ?_, ?_, ?_⟩
  · unfold handleDeleteConvo msgsOf
    split
    · rfl
    · exact getMsgs_filter_ne s.messagesById id
  · simp [pollerActiveFor, hth]
  · unfold handleDeleteConvo
    split <;> rfl
  · unfold handleDeleteConvo
    split <;> rfl
  · unfold handleDeleteConvo
    split <;> rfl

/-- The app state of the C9 counterexample: claim c1 is active, has one
persisted message, and has a request in flight. -/
def C9State : AppState :=
  { threads := [{ id := "c1", active := true }, { id := "c2" }]
  , messagesById := [("c1", [{ id := "w", role := "assistant", content := .jstr "hi" }])]
  , pendingFor := some "c1"
  , inFlight := some "c1" }

/-- C9 counterexample: deleting claim c1 while its request is in flight
does not cancel that request — the abort state and busy marker still point
at c1 — and when the request later completes, its handler re-creates a
message entry under the deleted id. -/
theorem C9_delete_does_not_cancel :
    (handleDeleteConvo "c1" C9State).inFlight = some "c1" ∧
    (handleDeleteConvo "c1" C9State).pendingFor = some "c1" ∧
    msgsOf (handleDeleteConvo "c1" C9State) "c1" = [] ∧
    (msgsOf (completeSend "c1" "a9" (.ok (.jobj [("message", .jstr "late")]))
      (handleDeleteConvo "c1" C9State)) "c1").length = 1 :=
  ⟨rfl, rfl, rfl, rfl⟩

/-- The poller entry condition as the claim words it (the spec-side
definition, kept for comparison with the code-side `pollerActive`): status
pending, or a terminal status with no message yet carrying the matching
terminal stage tag. -/
def pollerEntryClaim (t : Thread) (msgs : List Msg) : Bool :=
  t.insuranceStatus == some "pending" ||
  ((t.insuranceStatus == some "approved" || t.insuranceStatus == some "denied") &&
   !(msgs.any fun m => m.status == t.insuranceStatus))

/-- Thread and messages of the first C8 counterexample: no insurance
status at all, but one message still carries an insurance_pending meta. -/
def C8T : Thread := { id := "c1" }

/-- Messages of the first C8 counterexample. -/
def C8M : List Msg :=
  [{ id := "m1", role := "assistant", content := .jstr ""
   , meta := some { insurance_pending := some (.jobj [("session_id", .jstr "c1")]) } }]

/-- Thread of the second C8 counterexample: status denied. -/
def C8T2 : Thread := { id := "c1", insuranceStatus := some "denied" }

/-- Messages of the second C8 counterexample: an approved-tagged insurance
message but no denied-tagged one. -/
def C8M2 : List Msg :=
  [{ id := "m2", role := "assistant", content := .jstr ""
   , tool_result := .jobj [("result_json", .jobj [])], status := some "approved" }]

/-- C8 counterexample, both directions: the code also polls when a message
carries an unresolved insurance_pending meta even though the status is
neither pending nor terminal; and with status denied the code stops polling
as soon as any terminal insurance message exists, even when no message
carries the matching denied tag. -/
theorem C8_poller_entry_counterexample :
    pollerActive C8T C8M = true ∧ pollerEntryClaim C8T C8M = false ∧
    pollerActive C8T2 C8M2 = false ∧ pollerEntryClaim C8T2 C8M2 = true :=
  ⟨rfl, rfl, rfl, rfl⟩

/-- The if-chain of `shouldPollInsuranceNow` as one boolean expression. -/
theorem shouldPoll_eq (t : Thread) (msgs : List Msg) :
    shouldPollInsuranceNow t msgs =
      (t.insuranceStatus == some "pending" ||
       ((t.insuranceStatus == some "approved" || t.insuranceStatus == some "denied")
         && !hasFinalInsuranceMessage msgs)) := by
  unfold shouldPollInsuranceNow
  split_ifs with h1 h2 <;> simp_all

/-- C8 (amended): the poller is active exactly when a message still carries
an unresolved insurance_pending marker, or the status is pending, or the
status is terminal and no message yet carries any terminal (approved or
denied) tag together with an insurance-shaped tool result — the dedup looks
for any terminal insurance message, not specifically the matching one. -/
theorem C8_poller_entry_amended (t : Thread) (msgs : List Msg) :
    pollerActive t msgs = true ↔
      ((∃ m ∈ msgs, m.metaInsPending = true) ∨
       t.insuranceStatus = some "pending" ∨
       ((t.insuranceStatus = some "approved" ∨ t.insuranceStatus = some "denied") ∧
        ¬ ∃ m ∈ msgs, ((m.status = some "approved" ∨ m.status = some "denied") ∧
          isInsuranceToolResult m.tool_result = true))) := by
  rw [pollerActive, Bool.or_eq_true, shouldPoll_eq]
  unfold hasPendingInsurance hasFinalInsuranceMessage
  simp [List.any_eq_true, or_assoc]

/-- App state of the C1 failing input: claim c1 awaits the insurer. -/
def C1State : AppState :=
  { threads := [{ id := "c1", insuranceStatus := some "pending", active := true }]
  , messagesById := [("c1", [])] }

/-- The C1 failing poll item: a terminal approved decision whose
insurance_reply carries no tool_result, so the appended message's
tool_result is null. -/
def C1Item : JVal :=
  .jobj [("session_id", .jstr "c1"), ("status", .jstr "approved")]

/-- C1: applying the same terminal approved decision twice through the poll
tick appends a second approved-tagged message, because the dedup predicate
demands an existing approved message whose tool_result is an object with a
result_json or message key, and the null tool_result of the first appended
message never satisfies it — the code contradicts its own dedup comment and
the idempotency claim. -/
theorem C1_decision_reapplication_duplicates :
    countWithTag "approved" (msgsOf (tickStep "c1" "a1" C1Item C1State) "c1") = 1 ∧
    countWithTag "approved"
      (msgsOf (tickStep "c1" "a2" C1Item (tickStep "c1" "a1" C1Item C1State)) "c1") = 2 :=
  ⟨rfl, rfl⟩

/-- A claim whose status is neither terminal value observes a stage of rank
at most three (insurer_pending or below). -/
theorem observedStage_rank_le_three (t : Thread) (msgs : List Msg)
    (h1 : (t.insuranceStatus == some "approved") = false)
    (h2 : (t.insuranceStatus == some "denied") = false) :
    (observedStage t msgs).rank ≤ 3 := by
  unfold observedStage
  rw [h1, h2]
  split_ifs <;> simp_all [Stage.rank]

/-- Appending one message never lowers the observed stage's rank. -/
theorem observedStage_append_rank (t : Thread) (msgs : List Msg) (m : Msg) :
    (observedStage t msgs).rank ≤ (observedStage t (msgs ++ [m])).rank := by
  unfold observedStage
  by_cases h1 : t.insuranceStatus == some "approved"
  · simp [h1]
  · by_cases h2 : t.insuranceStatus == some "denied"
    · simp [h1, h2]
    · by_cases h3 : t.insuranceStatus == some "pending"
      · simp [h1, h2, h3]
      · simp only [Bool.not_eq_true] at h1 h2 h3
        rw [h1, h2, h3]
        by_cases h4 : msgs.any (fun mm => mm.status == some "approved")
        · have h5 : ((msgs ++ [m]).any (fun mm => mm.status == some "approved")) = true := by
            simp [List.any_append, h4]
          simp [h4, h5]
        · simp only [Bool.not_eq_true] at h4
          rw [h4]
          split_ifs <;> simp [Stage.rank]

/-- The observed stage does not depend on the thread title. -/
theorem observedStage_title (t : Thread) (v : JVal) (msgs : List Msg) :
    observedStage { t with title := v } msgs = observedStage t msgs := by
  obtain ⟨a, b, c, d, e⟩ := t
  rfl

/-- Setting the pending status observes insurer_pending. -/
theorem observedStage_set_pending (t : Thread) (msgs : List Msg) :
    observedStage { t with insuranceStatus := some "pending" } msgs = .insurer_pending := by
  obtain ⟨a, b, c, d, e⟩ := t
  simp [observedStage]

/-- Setting the approved status observes insurer_approved. -/
theorem observedStage_set_approved (t : Thread) (msgs : List Msg) :
    observedStage { t with insuranceStatus := some "approved" } msgs = .insurer_approved := by
  obtain ⟨a, b, c, d, e⟩ := t
  simp [observedStage]

/-- Setting the denied status observes insurer_denied. -/
theorem observedStage_set_denied (t : Thread) (msgs : List Msg) :
    observedStage { t with insuranceStatus := some "denied" } msgs = .insurer_denied := by
  obtain ⟨a, b, c, d, e⟩ := t
  simp [observedStage]

/-- Two states observing the same stage for a claim give equal ranks. -/
theorem rank_le_of_eq_stage {s1 s2 : AppState} {cid : String} {st st' : Stage}
    (hst : stageOfClaim s2 cid = stageOfClaim s1 cid)
    (h1 : stageOfClaim s1 cid = some st) (h2 : stageOfClaim s2 cid = some st') :
    st.rank ≤ st'.rank := by
  rw [hst, h1] at h2
  injection h2 with h
  rw [h]

/-- Setting a status on one claim leaves every other claim's thread
record unchanged. -/
theorem threadOf_setStatusL_other (ths : List Thread) (sid st cid : String)
    (h : cid ≠ sid) :
    (setStatusL sid st ths).find? (fun t => t.id == cid) =
      ths.find? (fun t => t.id == cid) := by
  rw [threadOf_setStatusL]
  cases hf : ths.find? (fun t => t.id == cid) with
  | none => rfl
  | some t =>
    have hp : (t.id == cid) = true := by simpa using List.find?_some hf
    have hne : t.id ≠ sid := by
      have he : t.id = cid := by simpa using hp
      simp [he, h]
    simp [hne]

/-- Setting a status on a claim updates exactly its found thread record. -/
theorem threadOf_setStatusL_self (ths : List Thread) (sid st : String) (t : Thread)
    (hf : ths.find? (fun x => x.id == sid) = some t) :
    (setStatusL sid st ths).find? (fun x => x.id == sid) =
      some { t with insuranceStatus := some st } := by
  rw [threadOf_setStatusL, hf]
  have he : t.id = sid := by simpa using List.find?_some hf
  simp [he]

/-- Patching a title on one claim leaves every other claim's thread record
unchanged. -/
theorem threadOf_patchTitleL_other (ths : List Thread) (sid : String) (v : JVal)
    (cid : String) (h : cid ≠ sid) :
    (patchTitleL sid v ths).find? (fun t => t.id == cid) =
      ths.find? (fun t => t.id == cid) := by
  rw [threadOf_patchTitleL]
  cases hf : ths.find? (fun t => t.id == cid) with
  | none => rfl
  | some t =>
    have hp : (t.id == cid) = true := by simpa using List.find?_some hf
    have hne : t.id ≠ sid := by
      have he : t.id = cid := by simpa using hp
      simp [he, h]
    simp [hne]

/-- Patching a title on a claim updates exactly its found thread record. -/
theorem threadOf_patchTitleL_self (ths : List Thread) (sid : String) (v : JVal)
    (t : Thread) (hf : ths.find? (fun x => x.id == sid) = some t) :
    (patchTitleL sid v ths).find? (fun x => x.id == sid) = some { t with title := v } := by
  rw [threadOf_patchTitleL, hf]
  have he : t.id = sid := by simpa using List.find?_some hf
  simp [he]

/-- The conditional title patch preserves the found record's id and
status. -/
theorem find?_condPatch_status (ths : List Thread) (sid : String) (v : JVal)
    (b : Bool) (t : Thread) (hf : ths.find? (fun x => x.id == sid) = some t) :
    ∃ t1, (if b then patchTitleL sid v ths else ths).find? (fun x => x.id == sid) = some t1
      ∧ t1.insuranceStatus = t.insuranceStatus ∧ t1.id = t.id := by
  cases b with
  | false => exact ⟨t, by simpa using hf, rfl, rfl⟩
  | true =>
    refine ⟨{ t with title := v }, ?_, rfl, rfl⟩
    simpa using threadOf_patchTitleL_self ths sid v t hf

/-- The conditional title patch leaves other claims' records unchanged. -/
theorem find?_condPatch_other (ths : List Thread) (sid : String) (v : JVal)
    (b : Bool) (cid : String) (h : cid ≠ sid) :
    (if b then patchTitleL sid v ths else ths).find? (fun t => t.id == cid) =
      ths.find? (fun t => t.id == cid) := by
  cases b with
  | false => rfl
  | true => simpa using threadOf_patchTitleL_other ths sid v cid h

/-- Unchanged thread record and messages give an unchanged stage hence
equal ranks. -/
theorem rank_le_of_parts {s1 s2 : AppState} {cid : String} {st st' : Stage}
    (hth : threadOf s2 cid = threadOf s1 cid)
    (hmsg : msgsOf s2 cid = msgsOf s1 cid)
    (h1 : stageOfClaim s1 cid = some st) (h2 : stageOfClaim s2 cid = some st') :
    st.rank ≤ st'.rank := by
  apply rank_le_of_eq_stage ?_ h1 h2
  have hfun : (fun t => observedStage t (msgsOf s2 cid))
      = (fun t => observedStage t (msgsOf s1 cid)) := by
    funext t
    rw [hmsg]
  rw [stageOfClaim, stageOfClaim, hth, hfun]

/-- Unchanged thread record with one appended message can only raise the
rank. -/
theorem rank_le_of_append {s1 s2 : AppState} {cid : String} {st st' : Stage} {m : Msg}
    (hth : threadOf s2 cid = threadOf s1 cid)
    (hmsg : msgsOf s2 cid = msgsOf s1 cid ++ [m])
    (h1 : stageOfClaim s1 cid = some st) (h2 : stageOfClaim s2 cid = some st') :
    st.rank ≤ st'.rank := by
  rcases Option.map_eq_some'.mp h1 with ⟨t, ht, hst⟩
  rcases Option.map_eq_some'.mp h2 with ⟨t2, ht2, hst2⟩
  rw [hth, ht] at ht2
  injection ht2 with ht2e
  subst ht2e
  rw [← hst, ← hst2, hmsg]
  exact observedStage_append_rank t (msgsOf s1 cid) m

/-- A poll tick never touches another claim's messages. -/
theorem tickStep_msgs_other (sid aid cid : String) (item : JVal) (s : AppState)
    (h : cid ≠ sid) : msgsOf (tickStep sid aid item s) cid = msgsOf s cid := by
  unfold tickStep msgsOf
  split_ifs <;> first
    | rfl
    | exact getMsgs_setMsgs_other _ _ _ _ h

/-- C2 counterexample: an operator submission completing with an
insurance_pending response on a claim already in insurer_approved moves
the observed stage back to insurer_pending — the code sets the pending
status unconditionally (page.tsx 423-426). -/
theorem C2_stage_regress_counterexample :
    stageOfClaim
      { threads := [{ id := "c1", insuranceStatus := some "approved", active := true }]
      , messagesById := [("c1", [])] } "c1" = some .insurer_approved ∧
    stageOfClaim
      (applyOp (.complete "c1" "a1" (.ok (.jobj [("insurance_pending", .jbool true)])))
        { threads := [{ id := "c1", insuranceStatus := some "approved", active := true }]
        , messagesById := [("c1", [])] }) "c1" = some .insurer_pending ∧
    Stage.rank .insurer_pending < Stage.rank .insurer_approved :=
  ⟨rfl, rfl, by decide⟩

/-- C2 (amended): the observed stage rank never decreases under operator
message appends, submission starts, submission completions and poll ticks,
except in one case: a submission completion whose normalized response
carries a truthy insurance_pending marker resets a claim already at a
terminal insurer status back to insurer_pending.  Any operation that is not
that exact regression is monotone. -/
theorem C2_stage_monotone_amended (s : AppState) (cid : String) (op : Op)
    (hns : nonRegressing cid s op) (st st' : Stage)
    (h1 : stageOfClaim s cid = some st)
    (h2 : stageOfClaim (applyOp op s) cid = some st') :
    st.rank ≤ st'.rank := by
  cases op with
  | user sid uid c =>
    by_cases hcs : cid = sid
    · subst hcs
      refine rank_le_of_append (m := { id := uid, role := "user", content := .jstr c })
        ?_ ?_ h1 h2
      · rfl
      · exact getMsgs_appendMsgL_self _ _ _
    · refine rank_le_of_parts ?_ ?_ h1 h2
      · rfl
      · exact getMsgs_appendMsgL_other _ _ _ _ hcs
  | start sid =>
    refine rank_le_of_parts ?_ ?_ h1 h2 <;> rfl
  | complete sid aid o =>
    cases o with
    | aborted => refine rank_le_of_parts ?_ ?_ h1 h2 <;> rfl
    | httpErr e =>
      by_cases hcs : cid = sid
      · subst hcs
        refine rank_le_of_append (m := mkErrorMsg aid e) ?_ ?_ h1 h2
        · rfl
        · exact getMsgs_appendMsgL_self _ _ _
      · refine rank_le_of_parts ?_ ?_ h1 h2
        · rfl
        · exact getMsgs_appendMsgL_other _ _ _ _ hcs
    | ok json =>
      cases hn : normalizeResponse json with
      | error e =>
        have hthr : (completeSend sid aid (.ok json) s).threads = s.threads := by
          simp [completeSend, sendEffect, hn]
        have hmm : (completeSend sid aid (.ok json) s).messagesById
            = appendMsgL sid (mkErrorMsg aid e) s.messagesById := by
          simp [completeSend, sendEffect, hn]
        by_cases hcs : cid = sid
        · subst hcs
          refine rank_le_of_append (m := mkErrorMsg aid e) ?_ ?_ h1 h2
          · unfold threadOf applyOp
            rw [hthr]
          · unfold msgsOf applyOp
            rw [hmm]
            exact getMsgs_appendMsgL_self _ _ _
        · refine rank_le_of_parts ?_ ?_ h1 h2
          · unfold threadOf applyOp
            rw [hthr]
          · unfold msgsOf applyOp
            rw [hmm]
            exact getMsgs_appendMsgL_other _ _ _ _ hcs
      | ok r =>
        have hmm : (completeSend sid aid (.ok json) s).messagesById
            = appendMsgL sid (mkAssistantMsg aid r) s.messagesById := by
          simp [completeSend, sendEffect, hn]
        by_cases hmp : r.metaPendTruthy
        · have hthr : (completeSend sid aid (.ok json) s).threads
              = setStatusL sid "pending"
                  (if (r.tool.get "title").truthy
                   then patchTitleL sid (r.tool.get "title") s.threads
                   else s.threads) := by
            simp [completeSend, sendEffect, hn, hmp]
          by_cases hcs : cid = sid
          · subst hcs
            have hresp : respSetsInsurancePending json = true := by
              simp [respSetsInsurancePending, hn, hmp]
            have hterm : claimTerminal s cid = false := hns rfl hresp
            rcases Option.map_eq_some'.mp h1 with ⟨t, ht, hst⟩
            have hterm2 : (t.insuranceStatus == some "approved"
                || t.insuranceStatus == some "denied") = false := by
              unfold claimTerminal at hterm
              simp only [ht] at hterm
              exact hterm
            rcases Bool.or_eq_false_iff.mp hterm2 with ⟨hta, htd⟩
            have hle3 : st.rank ≤ 3 := by
              rw [← hst]
              exact observedStage_rank_le_three t _ hta htd
            rcases Option.map_eq_some'.mp h2 with ⟨t2, ht2, hst2⟩
            rcases find?_condPatch_status s.threads cid (r.tool.get "title")
                ((r.tool.get "title").truthy) t ht with ⟨t1, ht1, hins, hid⟩
            have hfin : threadOf (applyOp (.complete cid aid (.ok json)) s) cid
                = some { t1 with insuranceStatus := some "pending" } := by
              unfold threadOf applyOp
              rw [hthr]
              exact threadOf_setStatusL_self _ _ _ t1 ht1
            rw [hfin] at ht2
            injection ht2 with he
            subst he
            have hstv : st' = .insurer_pending := by
              rw [← hst2]
              exact observedStage_set_pending t1 _
            rw [hstv]
            exact hle3
          · refine rank_le_of_parts ?_ ?_ h1 h2
            · unfold threadOf applyOp
              rw [hthr, threadOf_setStatusL_other _ _ _ _ hcs]
              exact find?_condPatch_other _ _ _ _ _ hcs
            · unfold msgsOf applyOp
              rw [hmm]
              exact getMsgs_appendMsgL_other _ _ _ _ hcs
        · have hthr : (completeSend sid aid (.ok json) s).threads
              = (if (r.tool.get "title").truthy
                 then patchTitleL sid (r.tool.get "title") s.threads
                 else s.threads) := by
            simp [completeSend, sendEffect, hn, hmp]
          by_cases hcs : cid = sid
          · subst hcs
            rcases Option.map_eq_some'.mp h1 with ⟨t, ht, hst⟩
            rcases Option.map_eq_some'.mp h2 with ⟨t2, ht2, hst2⟩
            rcases find?_condPatch_status s.threads cid (r.tool.get "title")
                ((r.tool.get "title").truthy) t ht with ⟨t1, ht1, hins, hid⟩
            have hfin : threadOf (applyOp (.complete cid aid (.ok json)) s) cid
                = some t1 := by
              unfold threadOf applyOp
              rw [hthr]
              exact ht1
            rw [hfin] at ht2
            injection ht2 with he
            subst he
            have hmsg : msgsOf (applyOp (.complete cid aid (.ok json)) s) cid
                = msgsOf s cid ++ [mkAssistantMsg aid r] := by
              unfold msgsOf applyOp
              rw [hmm]
              exact getMsgs_appendMsgL_self _ _ _
            have hobs : observedStage t1 (msgsOf s cid ++ [mkAssistantMsg aid r])
                = observedStage t (msgsOf s cid ++ [mkAssistantMsg aid r]) := by
              unfold observedStage
              rw [hins]
            rw [← hst, ← hst2, hmsg, hobs]
            exact observedStage_append_rank t _ _
          · refine rank_le_of_parts ?_ ?_ h1 h2
            · unfold threadOf applyOp
              rw [hthr]
              exact find?_condPatch_other _ _ _ _ _ hcs
            · unfold msgsOf applyOp
              rw [hmm]
              exact getMsgs_appendMsgL_other _ _ _ _ hcs
  | tick sid aid item =>
    by_cases hit : item.truthy
    · by_cases hap : (item.get "status").isStr "approved"
      · have hthr : (tickStep sid aid item s).threads
            = setStatusL sid "approved" s.threads := by
          simp [tickStep, hit, hap]
        by_cases hcs : cid = sid
        · subst hcs
          rcases Option.map_eq_some'.mp h1 with ⟨t, ht, hst⟩
          rcases Option.map_eq_some'.mp h2 with ⟨t2, ht2, hst2⟩
          have hfin : threadOf (applyOp (.tick cid aid item) s) cid
              = some { t with insuranceStatus := some "approved" } := by
            unfold threadOf applyOp
            rw [hthr]
            exact threadOf_setStatusL_self _ _ _ t ht
          rw [hfin] at ht2
          injection ht2 with he
          subst he
          have hstv : st' = .insurer_approved := by
            rw [← hst2]
            exact observedStage_set_approved t _
          rw [hstv]
          exact rank_le_four st
        · refine rank_le_of_parts ?_ ?_ h1 h2
          · unfold threadOf applyOp
            rw [hthr]
            exact threadOf_setStatusL_other _ _ _ _ hcs
          · exact tickStep_msgs_other _ _ _ _ _ hcs
      · by_cases hde : (item.get "status").isStr "denied"
        · have hthr : (tickStep sid aid item s).threads
              = setStatusL sid "denied" s.threads := by
            simp [tickStep, hit, hap, hde]
          by_cases hcs : cid = sid
          · subst hcs
            rcases Option.map_eq_some'.mp h1 with ⟨t, ht, hst⟩
            rcases Option.map_eq_some'.mp h2 with ⟨t2, ht2, hst2⟩
            have hfin : threadOf (applyOp (.tick cid aid item) s) cid
                = some { t with insuranceStatus := some "denied" } := by
              unfold threadOf applyOp
              rw [hthr]
              exact threadOf_setStatusL_self _ _ _ t ht
            rw [hfin] at ht2
            injection ht2 with he
            subst he
            have hstv : st' = .insurer_denied := by
              rw [← hst2]
              exact observedStage_set_denied t _
            rw [hstv]
            exact rank_le_four st
          · refine rank_le_of_parts ?_ ?_ h1 h2
            · unfold threadOf applyOp
              rw [hthr]
              exact threadOf_setStatusL_other _ _ _ _ hcs
            · exact tickStep_msgs_other _ _ _ _ _ hcs
        · have hid : tickStep sid aid item s = s := by
            simp [tickStep, hit, hap, hde]
          have h2e : stageOfClaim s cid = some st' := by
            rw [← hid]
            exact h2
          rw [h1] at h2e
          injection h2e with he
          rw [he]
    · have hid : tickStep sid aid item s = s := by
        simp [tickStep, hit]
      have h2e : stageOfClaim s cid = some st' := by
        rw [← hid]
        exact h2
      rw [h1] at h2e
      injection h2e with he
      rw [he]

/-- C2 witness: a poll tick moving a claim from insurer_pending to
insurer_approved is monotone. -/
theorem C2_stage_monotone_amended_witness :
    stageOfClaim
      { threads := [{ id := "c1", insuranceStatus := some "pending", active := true }]
      , messagesById := [("c1", [])] } "c1" = some .insurer_pending ∧
    stageOfClaim
      (applyOp (.tick "c1" "a1" (.jobj [("status", .jstr "approved")]))
        { threads := [{ id := "c1", insuranceStatus := some "pending", active := true }]
        , messagesById := [("c1", [])] }) "c1" = some .insurer_approved ∧
    Stage.rank .insurer_pending ≤ Stage.rank .insurer_approved :=
  ⟨rfl, rfl,
    C2_stage_monotone_amended
      { threads := [{ id := "c1", insuranceStatus := some "pending", active := true }]
      , messagesById := [("c1", [])] } "c1"
      (.tick "c1" "a1" (.jobj [("status", .jstr "approved")]))
      trivial .insurer_pending .insurer_approved rfl rfl⟩

end ClaimBridge
